import Mathlib

/-!
Shallow embedding of the exam-session controller of the driving-test
application (component `ExamInterface`), together with the question-set
loader's selection logic and the scorer.

Conventions of the embedding:
* JS objects used as string-keyed maps (`selectedAnswers`) become
  insertion-ordered association lists; the spread update
  `{...prev, [k]: v}` keeps an existing key in place and overwrites its
  value, otherwise appends the key at the end, exactly as JS key
  enumeration order behaves.
* Calls to the external collaborator (response insert, exam finalize,
  `onExamComplete`) are recorded as an append-only effect trace in the
  state, in program order.
* A JS runtime error (reading a field of `undefined` when the current
  question index is out of bounds) is modelled by `Option`: `none` is the
  aborted run.
* `Math.round((c / n) * 100)` rounds half away from zero for nonnegative
  arguments, i.e. `⌊100*c/n + 1/2⌋`; over the naturals this is
  `(200*c + n) / (2*n)`.  For the session lengths this program creates
  (at most 20 questions) the double-precision evaluation agrees with the
  exact rational rounding, so the embedding uses the exact form.
  `0/0` (empty question list) is `NaN` in JS; it is modelled as `0`.
-/

namespace Driving

/-- An answer row: identifier, owning question, text, correctness flag. -/
structure Answer where
  id : String
  question_id : String
  answer_text : String
  is_correct : Bool
deriving DecidableEq

/-- A question row together with its (possibly shuffled) answers. -/
structure Question where
  id : String
  question_text : String
  answers : List Answer
deriving DecidableEq

/-- The three exam modes. -/
inductive Mode where
  | practice
  | mock_test
  | learning
deriving DecidableEq

/-- The `selectedAnswers` record: question id ↦ chosen answer id,
in key-insertion order. -/
abbrev AnswerMap := List (String × String)

/-- JS property read `m[k]`: the value at the first occurrence of key `k`. -/
def lookupAL (m : AnswerMap) (k : String) : Option String :=
  match m with
  | [] => none
  | (k', v) :: rest => if k' = k then some v else lookupAL rest k

/-- JS spread update `{...m, [k]: v}`: overwrite in place, else append. -/
def insertAL (m : AnswerMap) (k v : String) : AnswerMap :=
  match m with
  | [] => [(k, v)]
  | (k', v') :: rest =>
      if k' = k then (k', v) :: rest else (k', v') :: insertAL rest k v

/-- One recorded call to the external collaborator. -/
inductive Effect where
  | response (exam_id question_id chosen_answer_id : String) (is_correct : Bool)
  | finalize (exam_id : String) (score : Nat) (passed : Bool)
  | examComplete (exam_id : String)
deriving DecidableEq

/-- The in-memory state of one exam session (the component's hooks),
plus the trace of external calls made so far. -/
structure ExamState where
  mode : Mode
  questions : List Question
  currentQuestionIndex : Nat
  selectedAnswers : AnswerMap
  timeLeft : Nat
  examId : String
  showExplanation : Bool
  /-- the demo-mode toggle: `VITE_SUPABASE_URL` absent or a placeholder -/
  useMockData : Bool
  effects : List Effect
deriving DecidableEq

/-- `question.answers.find(a => a.is_correct)`. -/
def findCorrect (q : Question) : Option Answer :=
  q.answers.find? (fun a => a.is_correct)

/-- `questions.find(q => q.id === questionId)`. -/
def findQuestion (qs : List Question) (qid : String) : Option Question :=
  qs.find? (fun q => q.id == qid)

/-- `selectedAnswerId === correctAnswer?.id` for a chosen answer id `aid`
(a string, hence never equal to `undefined`). -/
def isCorrectOf (q : Question) (aid : String) : Bool :=
  match findCorrect q with
  | some ca => aid == ca.id
  | none => false

/-- `handleAnswerSelect(answerId)`: record the choice for the current
question; in learning mode also raise the explanation overlay. -/
def handleAnswerSelect (s : ExamState) (answerId : String) : Option ExamState :=
  match s.questions[s.currentQuestionIndex]? with
  | none => none
  | some q =>
      some { s with
        selectedAnswers := insertAL s.selectedAnswers q.id answerId,
        showExplanation :=
          if s.mode = Mode.learning then true else s.showExplanation }

/-- `saveResponse()`: persist the current question's response, skipped when
no answer was chosen (`if (!selectedAnswerId) return`, which also treats the
empty string as absent) and skipped entirely in demo mode. -/
def saveResponse (s : ExamState) : Option ExamState :=
  match s.questions[s.currentQuestionIndex]? with
  | none => none
  | some q =>
      match lookupAL s.selectedAnswers q.id with
      | none => some s
      | some aid =>
          if aid = "" then some s
          else if s.useMockData then some s
          else some { s with
            effects := s.effects ++
              [Effect.response s.examId q.id aid (isCorrectOf q aid)] }

/-- The `responses.forEach` body of `handleSubmitExam` for one key
`qid` of `selectedAnswers` whose looked-up value is `aid`. -/
def entryCorrect (qs : List Question) (qid aid : String) : Bool :=
  match findQuestion qs qid with
  | some q => isCorrectOf q aid
  | none => false

/-- `correctCount`: iterate `Object.keys(selectedAnswers)`, look each key
up again, and count the matches against the correctness-flagged answer. -/
def correctCount (qs : List Question) (sel : AnswerMap) : Nat :=
  (sel.map Prod.fst).countP (fun qid =>
    match lookupAL sel qid with
    | some aid => entryCorrect qs qid aid
    | none => false)

/-- `Math.round((correctCount / questions.length) * 100)`, exactly:
half-up rounding of `100*c/n`, with the JS `NaN` of `n = 0` as `0`. -/
def computeScore (c n : Nat) : Nat :=
  if n = 0 then 0 else (200 * c + n) / (2 * n)

/-- The `passed` flag computed at submission: `score >= 70`. -/
def passedOf (score : Nat) : Bool :=
  decide (70 ≤ score)

/-- The score `handleSubmitExam` computes from a session's final state. -/
def computeExamScore (qs : List Question) (sel : AnswerMap) : Nat :=
  computeScore (correctCount qs sel) qs.length

/-- `handleSubmitExam()`: save the current response outside learning mode,
compute score and pass flag, then finalize (skipping the exam update in
demo mode) and signal completion. -/
def handleSubmitExam (s : ExamState) : Option ExamState :=
  match (if s.mode = Mode.learning then some s else saveResponse s) with
  | none => none
  | some s1 =>
      if s1.useMockData then
        some { s1 with effects := s1.effects ++ [Effect.examComplete s1.examId] }
      else
        some { s1 with effects := s1.effects ++
          [Effect.finalize s1.examId (computeExamScore s1.questions s1.selectedAnswers)
             (passedOf (computeExamScore s1.questions s1.selectedAnswers)),
           Effect.examComplete s1.examId] }

/-- `handleNextQuestion()`: save the response outside learning mode, then
either step the pointer forward or, on the last question, submit. -/
def handleNextQuestion (s : ExamState) : Option ExamState :=
  match (if s.mode = Mode.learning then some s else saveResponse s) with
  | none => none
  | some s1 =>
      if s1.currentQuestionIndex < s1.questions.length - 1 then
        some { s1 with
          currentQuestionIndex := s1.currentQuestionIndex + 1,
          showExplanation := false }
      else
        handleSubmitExam s1

/-- `handlePreviousQuestion()`: step back unless already at the first. -/
def handlePreviousQuestion (s : ExamState) : ExamState :=
  if 0 < s.currentQuestionIndex then
    { s with
      currentQuestionIndex := s.currentQuestionIndex - 1,
      showExplanation := false }
  else s

/-- One tick of the mock-test countdown.  The interval only exists while
`mode === 'mock_test' && timeLeft > 0`; its callback submits and clamps
the clock to `0` when the previous value is `<= 1`, else decrements. -/
def timerTick (s : ExamState) : Option ExamState :=
  if s.mode = Mode.mock_test ∧ 0 < s.timeLeft then
    if s.timeLeft ≤ 1 then
      match handleSubmitExam s with
      | none => none
      | some s1 => some { s1 with timeLeft := 0 }
    else
      some { s with timeLeft := s.timeLeft - 1 }
  else some s

/-- `n` consecutive timer ticks. -/
def timerIter : Nat → ExamState → Option ExamState
  | 0, s => some s
  | n + 1, s =>
      match timerTick s with
      | none => none
      | some s1 => timerIter n s1

/-- `showResult` as the answer buttons compute it:
`mode === 'learning' && showExplanation`. -/
def showResult (s : ExamState) : Bool :=
  if s.mode = Mode.learning then s.showExplanation else false

/-- An answer button click: `onClick={() => !showResult && handleAnswerSelect(..)}`
with `disabled={showResult}` — while the explanation shows, the click
reaches nothing and the state is unchanged. -/
def clickAnswer (s : ExamState) (answerId : String) : Option ExamState :=
  if showResult s then some s else handleAnswerSelect s answerId

/-- `mode === 'mock_test' ? 20 : 10`, the session length policy. -/
def questionCount (mode : Mode) : Nat :=
  if mode = Mode.mock_test then 20 else 10

/-- The demo-data branch of `fetchQuestions`: slice the pool to the mode's
count, reshuffle each question's answers, shuffle the sequence.  The two
`sort(() => Math.random() - 0.5)` reorderings are passed in as functions. -/
def fetchQuestionsMock (shuffleQ : List Question → List Question)
    (shuffleA : List Answer → List Answer)
    (pool : List Question) (mode : Mode) : List Question :=
  shuffleQ ((pool.take (min (questionCount mode) pool.length)).map
    (fun q => { q with answers := shuffleA q.answers }))

/-- How many finalize calls a trace contains. -/
def countFinalize (es : List Effect) : Nat :=
  es.countP (fun e =>
    match e with
    | Effect.finalize _ _ _ => true
    | _ => false)

/-- How many response records a trace contains for the question `qid`. -/
def countResponsesFor (qid : String) (es : List Effect) : Nat :=
  es.countP (fun e =>
    match e with
    | Effect.response _ q _ _ => q == qid
    | _ => false)

/-- Whether an effect is a persisted response record. -/
def isResponse (e : Effect) : Bool :=
  match e with
  | Effect.response _ _ _ _ => true
  | _ => false

/-- The claim's own counting rule, written from the spec's words: the
number of questions of the sequence whose chosen-answer identifier equals
the identifier of that question's correctness-flagged answer. -/
def specCorrectCount (qs : List Question) (sel : AnswerMap) : Nat :=
  qs.countP (fun q =>
    match lookupAL sel q.id, findCorrect q with
    | some aid, some ca => aid == ca.id
    | _, _ => false)

/-- The effects one `saveResponse()` call appends for current question `q`. -/
def saveResponseEffects (s : ExamState) (q : Question) : List Effect :=
  match lookupAL s.selectedAnswers q.id with
  | none => []
  | some aid =>
      if aid = "" then []
      else if s.useMockData then []
      else [Effect.response s.examId q.id aid (isCorrectOf q aid)]

/-- The effects of the save-step that `handleNextQuestion` and
`handleSubmitExam` run before anything else (empty in learning mode). -/
def preSubmitEffects (s : ExamState) (q : Question) : List Effect :=
  if s.mode = Mode.learning then [] else saveResponseEffects s q

/-- The effects of the finalize step of `handleSubmitExam` (the exam
update is skipped in demo mode, completion is always signalled). -/
def finalizeEffects (s : ExamState) : List Effect :=
  if s.useMockData then [Effect.examComplete s.examId]
  else
    [Effect.finalize s.examId (computeExamScore s.questions s.selectedAnswers)
       (passedOf (computeExamScore s.questions s.selectedAnswers)),
     Effect.examComplete s.examId]

/-- All effects of one `handleSubmitExam()` call from a state whose
current question is `q`. -/
def submitEffects (s : ExamState) (q : Question) : List Effect :=
  preSubmitEffects s q ++ finalizeEffects s

theorem lookupAL_insert_self (m : AnswerMap) (k v : String) :
    lookupAL (insertAL m k v) k = some v := by
  induction m with
  | nil => simp [insertAL, lookupAL]
  | cons e rest ih =>
      obtain ⟨k', v'⟩ := e
      by_cases h : k' = k
      · simp [insertAL, lookupAL, h]
      · simp [insertAL, lookupAL, h, ih]

theorem lookupAL_insert_ne (m : AnswerMap) (k v k' : String) (h : k' ≠ k) :
    lookupAL (insertAL m k v) k' = lookupAL m k' := by
  induction m with
  | nil =>
      have hkk : ¬k = k' := fun he => h he.symm
      simp [insertAL, lookupAL, hkk]
  | cons e rest ih =>
      obtain ⟨a, b⟩ := e
      by_cases ha : a = k
      · have hak : ¬a = k' := fun he => h (he.symm.trans ha)
        have hkk : ¬k = k' := fun he => h he.symm
        simp [insertAL, lookupAL, ha, hak, hkk]
      · by_cases hb : a = k'
        · simp [insertAL, lookupAL, ha, hb, h]
        · simp [insertAL, lookupAL, ha, hb, ih]

theorem lookupAL_eq_none (m : AnswerMap) (k : String)
    (h : k ∉ m.map Prod.fst) : lookupAL m k = none := by
  induction m with
  | nil => rfl
  | cons e rest ih =>
      obtain ⟨a, b⟩ := e
      simp only [List.map_cons, List.mem_cons] at h
      push_neg at h
      have hak : ¬a = k := fun he => h.1 he.symm
      simp [lookupAL, hak, ih h.2]

theorem insertAL_keys_mem (m : AnswerMap) (k v : String)
    (h : k ∈ m.map Prod.fst) :
    (insertAL m k v).map Prod.fst = m.map Prod.fst := by
  induction m with
  | nil => simp at h
  | cons e rest ih =>
      obtain ⟨a, b⟩ := e
      by_cases ha : a = k
      · simp [insertAL, ha]
      · simp only [List.map_cons, List.mem_cons] at h
        rcases h with h | h
        · exact absurd h.symm ha
        · simp [insertAL, ha, ih h]

theorem insertAL_keys_not_mem (m : AnswerMap) (k v : String)
    (h : k ∉ m.map Prod.fst) :
    (insertAL m k v).map Prod.fst = m.map Prod.fst ++ [k] := by
  induction m with
  | nil => simp [insertAL]
  | cons e rest ih =>
      obtain ⟨a, b⟩ := e
      simp only [List.map_cons, List.mem_cons] at h
      push_neg at h
      have hak : ¬a = k := fun he => h.1 he.symm
      simp [insertAL, hak, ih h.2]

theorem findQuestion_eq_of_nodup (qs : List Question) (q : Question)
    (hmem : q ∈ qs) (hnd : (qs.map Question.id).Nodup) :
    findQuestion qs q.id = some q := by
  induction qs with
  | nil => cases hmem
  | cons q0 rest ih =>
      simp only [List.map_cons, List.nodup_cons] at hnd
      rcases List.mem_cons.mp hmem with h | h
      · subst h
        exact List.find?_cons_of_pos rest (by simp)
      · have hmm : q.id ∈ rest.map Question.id := List.mem_map_of_mem Question.id h
        have hne : ¬(q0.id == q.id) = true := by
          simp only [beq_iff_eq]
          intro he
          rw [← he] at hmm
          exact hnd.1 hmm
        unfold findQuestion
        rw [List.find?_cons_of_neg rest hne]
        exact ih h hnd.2

theorem correctCount_eq_entries (qs : List Question) (sel : AnswerMap)
    (hnd : (sel.map Prod.fst).Nodup) :
    correctCount qs sel = sel.countP (fun e => entryCorrect qs e.1 e.2) := by
  induction sel with
  | nil => rfl
  | cons e rest ih =>
      obtain ⟨k, v⟩ := e
      simp only [List.map_cons, List.nodup_cons] at hnd
      unfold correctCount
      simp only [List.map_cons, List.countP_cons]
      have htail : (rest.map Prod.fst).countP (fun qid =>
          match lookupAL ((k, v) :: rest) qid with
          | some aid => entryCorrect qs qid aid
          | none => false) = correctCount qs rest := by
        unfold correctCount
        refine List.countP_congr ?_
        intro qid hqid
        have hne : ¬k = qid := by
          intro he
          rw [← he] at hqid
          exact hnd.1 hqid
        simp [lookupAL, hne]
      have hhead : (match lookupAL ((k, v) :: rest) k with
          | some aid => entryCorrect qs k aid
          | none => false) = entryCorrect qs k v := by
        simp [lookupAL]
      rw [htail, hhead, ih hnd.2]

theorem specCorrectCount_nil (qs : List Question) :
    specCorrectCount qs [] = 0 := by
  unfold specCorrectCount
  refine List.countP_eq_zero.mpr ?_
  intro q hq
  simp [lookupAL]

theorem specCorrectCount_cons (qs : List Question) (k v : String)
    (t : AnswerMap)
    (hq : (qs.map Question.id).Nodup)
    (hk : k ∈ qs.map Question.id)
    (hkt : k ∉ t.map Prod.fst) :
    specCorrectCount qs ((k, v) :: t) =
      specCorrectCount qs t + (if entryCorrect qs k v then 1 else 0) := by
  induction qs with
  | nil => simp at hk
  | cons q0 rest ih =>
      simp only [List.map_cons, List.nodup_cons] at hq
      unfold specCorrectCount
      simp only [List.countP_cons]
      by_cases hqk : q0.id = k
      · have hrest : k ∉ rest.map Question.id := by
          rw [← hqk]; exact hq.1
        have htcount : rest.countP (fun q : Question =>
            match lookupAL ((k, v) :: t) q.id, findCorrect q with
            | some aid, some ca => aid == ca.id
            | _, _ => false) = rest.countP (fun q : Question =>
            match lookupAL t q.id, findCorrect q with
            | some aid, some ca => aid == ca.id
            | _, _ => false) := by
          refine List.countP_congr ?_
          intro q' hq'
          have hne : ¬k = q'.id := by
            intro he
            rw [he] at hrest
            exact hrest (List.mem_map_of_mem Question.id hq')
          simp only [lookupAL, if_neg hne]
        have hheadL : (match lookupAL ((k, v) :: t) q0.id, findCorrect q0 with
            | some aid, some ca => aid == ca.id
            | _, _ => false) = entryCorrect (q0 :: rest) k v := by
          have hl : lookupAL ((k, v) :: t) q0.id = some v := by
            simp [lookupAL, hqk]
          have hfind : findQuestion (q0 :: rest) k = some q0 :=
            List.find?_cons_of_pos rest (by simp [hqk])
          rw [hl]
          unfold entryCorrect
          rw [hfind]
          cases hfc : findCorrect q0 <;> simp [isCorrectOf, hfc]
        have hheadR : (match lookupAL t q0.id, findCorrect q0 with
            | some aid, some ca => aid == ca.id
            | _, _ => false) = false := by
          have hl : lookupAL t q0.id = none := by
            rw [hqk]; exact lookupAL_eq_none t k hkt
          rw [hl]
        rw [htcount, hheadL, hheadR]
        cases h : entryCorrect (q0 :: rest) k v <;> simp [h]
      · have hk' : k ∈ rest.map Question.id := by
          simp only [List.map_cons, List.mem_cons] at hk
          rcases hk with h | h
          · exact absurd h.symm hqk
          · exact h
        have hhead : (match lookupAL ((k, v) :: t) q0.id, findCorrect q0 with
            | some aid, some ca => aid == ca.id
            | _, _ => false) = (match lookupAL t q0.id, findCorrect q0 with
            | some aid, some ca => aid == ca.id
            | _, _ => false) := by
          have hne : ¬k = q0.id := fun he => hqk he.symm
          simp only [lookupAL, if_neg hne]
        have hentry : entryCorrect (q0 :: rest) k v = entryCorrect rest k v := by
          unfold entryCorrect findQuestion
          have hne : ¬(q0.id == k) = true := by simp [hqk]
          rw [List.find?_cons_of_neg rest hne]
        have ihh := ih hq.2 hk'
        unfold specCorrectCount at ihh
        rw [hhead, hentry]
        omega

theorem entries_eq_spec (qs : List Question) (sel : AnswerMap)
    (hq : (qs.map Question.id).Nodup)
    (hsel : (sel.map Prod.fst).Nodup)
    (hsub : ∀ k ∈ sel.map Prod.fst, k ∈ qs.map Question.id) :
    sel.countP (fun e => entryCorrect qs e.1 e.2) = specCorrectCount qs sel := by
  induction sel with
  | nil => rw [specCorrectCount_nil]; rfl
  | cons e rest ih =>
      obtain ⟨k, v⟩ := e
      simp only [List.map_cons, List.nodup_cons] at hsel
      have hkq : k ∈ qs.map Question.id := hsub k (by simp)
      have hsub' : ∀ x ∈ rest.map Prod.fst, x ∈ qs.map Question.id := by
        intro x hx
        exact hsub x (by simp [hx])
      rw [specCorrectCount_cons qs k v rest hq hkq hsel.1,
          List.countP_cons, ← ih hsel.2 hsub']

theorem correctCount_eq_spec (qs : List Question) (sel : AnswerMap)
    (hq : (qs.map Question.id).Nodup)
    (hsel : (sel.map Prod.fst).Nodup)
    (hsub : ∀ k ∈ sel.map Prod.fst, k ∈ qs.map Question.id) :
    correctCount qs sel = specCorrectCount qs sel := by
  rw [correctCount_eq_entries qs sel hsel, entries_eq_spec qs sel hq hsel hsub]

theorem specCorrectCount_le_length (qs : List Question) (sel : AnswerMap) :
    specCorrectCount qs sel ≤ qs.length :=
  List.countP_le_length _

theorem computeScore_eq_round (c n : Nat) (hn : n ≠ 0) :
    (computeScore c n : ℤ) = round ((100 * c : ℚ) / n) := by
  have hnQ : (n : ℚ) ≠ 0 := Nat.cast_ne_zero.mpr hn
  rw [round_eq]
  have hx : (100 * (c : ℚ)) / (n : ℚ) + 1 / 2 =
      ((200 * c + n : ℕ) : ℚ) / ((2 * n : ℕ) : ℚ) := by
    push_cast
    field_simp
    ring
  rw [hx]
  have h0 : (0 : ℚ) ≤ ((200 * c + n : ℕ) : ℚ) / ((2 * n : ℕ) : ℚ) :=
    div_nonneg (Nat.cast_nonneg _) (Nat.cast_nonneg _)
  rw [← Int.natCast_floor_eq_floor h0, Nat.floor_div_eq_div]
  unfold computeScore
  rw [if_neg hn]

theorem computeScore_le_100 (c n : Nat) (hc : c ≤ n) :
    computeScore c n ≤ 100 := by
  unfold computeScore
  split
  · omega
  · rename_i hn
    have hpos : 0 < 2 * n := by omega
    have h1 : (200 * c + n) / (2 * n) ≤ (201 * n) / (2 * n) :=
      Nat.div_le_div_right (by omega)
    have h2 : (201 * n) / (2 * n) < 101 := by
      rw [Nat.div_lt_iff_lt_mul hpos]
      omega
    omega

theorem insertAL_keys_nodup (m : AnswerMap) (k v : String)
    (h : (m.map Prod.fst).Nodup) :
    ((insertAL m k v).map Prod.fst).Nodup := by
  by_cases hk : k ∈ m.map Prod.fst
  · rw [insertAL_keys_mem m k v hk]; exact h
  · rw [insertAL_keys_not_mem m k v hk]
    refine List.Nodup.append h (List.nodup_singleton k) ?_
    intro x hx hx'
    simp only [List.mem_singleton] at hx'
    exact hk (hx' ▸ hx)

theorem saveResponse_eq (s : ExamState) (q : Question)
    (hq : s.questions[s.currentQuestionIndex]? = some q) :
    saveResponse s =
      some { s with effects := s.effects ++ saveResponseEffects s q } := by
  unfold saveResponse saveResponseEffects
  simp only [hq]
  cases hl : lookupAL s.selectedAnswers q.id with
  | none => simp
  | some aid =>
      by_cases he : aid = ""
      · simp only [if_pos he]
        simp
      · by_cases hm : s.useMockData
        · simp only [if_neg he, if_pos hm]
          simp
        · simp only [if_neg he, if_neg hm]

theorem saveResponse_some (s s' : ExamState) (h : saveResponse s = some s') :
    ∃ pre, (∀ e ∈ pre, isResponse e = true) ∧
      s'.effects = s.effects ++ pre ∧ s'.questions = s.questions ∧
      s'.selectedAnswers = s.selectedAnswers ∧ s'.mode = s.mode ∧
      s'.currentQuestionIndex = s.currentQuestionIndex ∧
      s'.timeLeft = s.timeLeft ∧ s'.useMockData = s.useMockData ∧
      s'.examId = s.examId ∧ s'.showExplanation = s.showExplanation := by
  unfold saveResponse at h
  cases hqe : s.questions[s.currentQuestionIndex]? with
  | none => simp [hqe] at h
  | some q =>
      simp only [hqe] at h
      cases hl : lookupAL s.selectedAnswers q.id with
      | none =>
          simp only [hl] at h
          cases h
          exact ⟨[], by simp, by simp, rfl, rfl, rfl, rfl, rfl, rfl, rfl, rfl⟩
      | some aid =>
          simp only [hl] at h
          by_cases he : aid = ""
          · rw [if_pos he] at h
            cases h
            exact ⟨[], by simp, by simp, rfl, rfl, rfl, rfl, rfl, rfl, rfl, rfl⟩
          · rw [if_neg he] at h
            by_cases hm : s.useMockData
            · rw [if_pos hm] at h
              cases h
              exact ⟨[], by simp, by simp, rfl, rfl, rfl, rfl, rfl, rfl, rfl, rfl⟩
            · rw [if_neg hm] at h
              cases h
              exact ⟨[Effect.response s.examId q.id aid (isCorrectOf q aid)],
                by simp [isResponse], rfl, rfl, rfl, rfl, rfl, rfl, rfl, rfl, rfl⟩

theorem handleSubmitExam_some (s s' : ExamState)
    (h : handleSubmitExam s = some s') :
    ∃ pre, (∀ e ∈ pre, isResponse e = true) ∧
      s'.effects = (s.effects ++ pre) ++ finalizeEffects s ∧
      s'.questions = s.questions ∧ s'.selectedAnswers = s.selectedAnswers ∧
      s'.mode = s.mode ∧ s'.currentQuestionIndex = s.currentQuestionIndex ∧
      s'.timeLeft = s.timeLeft ∧ s'.useMockData = s.useMockData ∧
      s'.examId = s.examId := by
  unfold handleSubmitExam at h
  by_cases hmode : s.mode = Mode.learning
  · rw [if_pos hmode] at h
    simp only [] at h
    by_cases hm : s.useMockData
    · rw [if_pos hm] at h
      cases h
      refine ⟨[], by simp, ?_, rfl, rfl, rfl, rfl, rfl, rfl, rfl⟩
      simp [finalizeEffects, hm]
    · rw [if_neg hm] at h
      cases h
      refine ⟨[], by simp, ?_, rfl, rfl, rfl, rfl, rfl, rfl, rfl⟩
      simp [finalizeEffects, hm]
  · rw [if_neg hmode] at h
    cases hsr : saveResponse s with
    | none => simp [hsr] at h
    | some s1 =>
        simp only [hsr] at h
        obtain ⟨pre, hresp, heff, hqs, hsel, hmo, hidx, ht, hmock, hexam, hshow⟩ :=
          saveResponse_some s s1 hsr
        by_cases hm : s1.useMockData
        · rw [if_pos hm] at h
          cases h
          refine ⟨pre, hresp, ?_, by simp [hqs], by simp [hsel], by simp [hmo],
            by simp [hidx], by simp [ht], by simp [hmock, hm], by simp [hexam]⟩
          have hmS : s.useMockData = true := by rw [← hmock]; exact hm
          simp [finalizeEffects, hmS, heff, hexam, List.append_assoc]
        · rw [if_neg hm] at h
          cases h
          refine ⟨pre, hresp, ?_, by simp [hqs], by simp [hsel], by simp [hmo],
            by simp [hidx], by simp [ht], by simp [hmock, hm], by simp [hexam]⟩
          have hmS : s.useMockData = false := by
            rw [← hmock]
            exact Bool.eq_false_iff.mpr hm
          simp [finalizeEffects, hmS, heff, hexam, hqs, hsel, List.append_assoc]

theorem handleAnswerSelect_eq (s : ExamState) (q : Question) (aid : String)
    (hq : s.questions[s.currentQuestionIndex]? = some q) :
    handleAnswerSelect s aid = some { s with
      selectedAnswers := insertAL s.selectedAnswers q.id aid,
      showExplanation :=
        if s.mode = Mode.learning then true else s.showExplanation } := by
  unfold handleAnswerSelect
  simp only [hq]

theorem handleSubmitExam_eq (s : ExamState) (q : Question)
    (hq : s.questions[s.currentQuestionIndex]? = some q) :
    handleSubmitExam s =
      some { s with effects :=
        s.effects ++ (preSubmitEffects s q ++ finalizeEffects s) } := by
  unfold handleSubmitExam preSubmitEffects
  by_cases hmode : s.mode = Mode.learning
  · rw [if_pos hmode]
    simp only [if_pos hmode]
    by_cases hm : s.useMockData
    · simp only [finalizeEffects, if_pos hm]
      simp
    · simp only [finalizeEffects, if_neg hm]
      simp
  · rw [if_neg hmode, saveResponse_eq s q hq]
    simp only [if_neg hmode]
    by_cases hm : s.useMockData
    · simp only [finalizeEffects, if_pos hm]
      simp
    · simp only [finalizeEffects, if_neg hm]
      simp

theorem handleNextQuestion_eq_step (s : ExamState) (q : Question)
    (hq : s.questions[s.currentQuestionIndex]? = some q)
    (hlt : s.currentQuestionIndex < s.questions.length - 1) :
    handleNextQuestion s = some { s with
      currentQuestionIndex := s.currentQuestionIndex + 1,
      showExplanation := false,
      effects := s.effects ++ preSubmitEffects s q } := by
  unfold handleNextQuestion preSubmitEffects
  by_cases hmode : s.mode = Mode.learning
  · rw [if_pos hmode]
    simp only [if_pos hmode, if_pos hlt]
    simp
  · rw [if_neg hmode, saveResponse_eq s q hq]
    simp only [if_neg hmode]
    simp only [if_pos hlt]

theorem saveResponseEffects_irrel (s : ExamState) (E : List Effect)
    (q : Question) :
    saveResponseEffects { s with effects := E } q = saveResponseEffects s q :=
  rfl

theorem handleNextQuestion_eq_last (s : ExamState) (q : Question)
    (hq : s.questions[s.currentQuestionIndex]? = some q)
    (hge : ¬s.currentQuestionIndex < s.questions.length - 1) :
    handleNextQuestion s = some { s with effects :=
      (s.effects ++ preSubmitEffects s q ++
        (preSubmitEffects s q ++ finalizeEffects s)) } := by
  unfold handleNextQuestion
  by_cases hmode : s.mode = Mode.learning
  · rw [if_pos hmode]
    simp only [if_neg hge]
    rw [handleSubmitExam_eq s q hq]
    simp [preSubmitEffects, hmode]
  · rw [if_neg hmode, saveResponse_eq s q hq]
    simp only [if_neg hge]
    rw [handleSubmitExam_eq { s with
      effects := s.effects ++ saveResponseEffects s q } q hq]
    simp [preSubmitEffects, hmode, finalizeEffects, saveResponseEffects_irrel,
      List.append_assoc]

/-- A concrete correctness-flagged answer, for witnesses. -/
def ansRight : Answer :=
  { id := "a1", question_id := "q1", answer_text := "stop", is_correct := true }

/-- A concrete wrong answer, for witnesses. -/
def ansWrong : Answer :=
  { id := "a2", question_id := "q1", answer_text := "go", is_correct := false }

/-- A concrete question, for witnesses. -/
def sampleQ : Question :=
  { id := "q1", question_text := "sign", answers := [ansRight, ansWrong] }

/-- A one-question live mock-test session at its last second, with the
correct answer chosen. -/
def sampleState : ExamState :=
  { mode := Mode.mock_test, questions := [sampleQ], currentQuestionIndex := 0,
    selectedAnswers := [("q1", "a1")], timeLeft := 1, examId := "e1",
    showExplanation := false, useMockData := false, effects := [] }

/-- The state `handleSubmitExam` produces from `sampleState`. -/
def sampleFinal : ExamState :=
  { sampleState with effects :=
      [Effect.response "e1" "q1" "a1" true,
       Effect.finalize "e1" 100 true,
       Effect.examComplete "e1"] }

theorem handlePreviousQuestion_first (s : ExamState)
    (h : s.currentQuestionIndex = 0) : handlePreviousQuestion s = s := by
  unfold handlePreviousQuestion
  rw [if_neg (by omega)]

theorem handlePreviousQuestion_step (s : ExamState)
    (h : 0 < s.currentQuestionIndex) :
    handlePreviousQuestion s = { s with
      currentQuestionIndex := s.currentQuestionIndex - 1,
      showExplanation := false } := by
  unfold handlePreviousQuestion
  rw [if_pos h]

/-- How many persisted response records a trace contains. -/
def countResponses (es : List Effect) : Nat :=
  es.countP isResponse

theorem countFinalize_append (es fs : List Effect) :
    countFinalize (es ++ fs) = countFinalize es + countFinalize fs :=
  List.countP_append _ es fs

theorem countResponses_append (es fs : List Effect) :
    countResponses (es ++ fs) = countResponses es + countResponses fs :=
  List.countP_append _ es fs

theorem countResponsesFor_append (qid : String) (es fs : List Effect) :
    countResponsesFor qid (es ++ fs) =
      countResponsesFor qid es + countResponsesFor qid fs :=
  List.countP_append _ es fs

theorem countFinalize_of_responses (pre : List Effect)
    (h : ∀ e ∈ pre, isResponse e = true) : countFinalize pre = 0 := by
  refine List.countP_eq_zero.mpr ?_
  intro e he
  have := h e he
  cases e <;> simp_all [isResponse]

theorem countFinalize_saveResponseEffects (s : ExamState) (q : Question) :
    countFinalize (saveResponseEffects s q) = 0 := by
  unfold saveResponseEffects
  cases lookupAL s.selectedAnswers q.id with
  | none => rfl
  | some aid =>
      dsimp only
      by_cases he : aid = ""
      · rw [if_pos he]; rfl
      · rw [if_neg he]
        by_cases hm : s.useMockData
        · rw [if_pos hm]; rfl
        · rw [if_neg hm]; rfl

theorem countFinalize_preSubmitEffects (s : ExamState) (q : Question) :
    countFinalize (preSubmitEffects s q) = 0 := by
  unfold preSubmitEffects
  by_cases hm : s.mode = Mode.learning
  · rw [if_pos hm]; rfl
  · rw [if_neg hm]; exact countFinalize_saveResponseEffects s q

theorem countFinalize_finalizeEffects (s : ExamState) :
    countFinalize (finalizeEffects s) = if s.useMockData then 0 else 1 := by
  unfold finalizeEffects
  by_cases hm : s.useMockData
  · rw [if_pos hm, if_pos hm]; rfl
  · rw [if_neg hm, if_neg hm]; rfl

theorem countResponses_finalizeEffects (s : ExamState) :
    countResponses (finalizeEffects s) = 0 := by
  unfold finalizeEffects
  by_cases hm : s.useMockData
  · rw [if_pos hm]; rfl
  · rw [if_neg hm]; rfl

theorem countResponsesFor_finalizeEffects (qid : String) (s : ExamState) :
    countResponsesFor qid (finalizeEffects s) = 0 := by
  unfold finalizeEffects
  by_cases hm : s.useMockData
  · rw [if_pos hm]; rfl
  · rw [if_neg hm]; rfl

theorem handleAnswerSelect_some (s s' : ExamState) (aid : String)
    (h : handleAnswerSelect s aid = some s') :
    s'.questions = s.questions ∧
    s'.currentQuestionIndex = s.currentQuestionIndex ∧ s'.mode = s.mode ∧
    s'.effects = s.effects ∧ s'.timeLeft = s.timeLeft ∧
    s'.useMockData = s.useMockData ∧ s'.examId = s.examId := by
  unfold handleAnswerSelect at h
  cases hqe : s.questions[s.currentQuestionIndex]? with
  | none => simp [hqe] at h
  | some q =>
      simp only [hqe] at h
      cases h
      exact ⟨rfl, rfl, rfl, rfl, rfl, rfl, rfl⟩

theorem nextQuestion_save_facts (s s1 : ExamState)
    (hsr : (if s.mode = Mode.learning then some s else saveResponse s) =
      some s1) :
    s1.questions = s.questions ∧ s1.selectedAnswers = s.selectedAnswers ∧
    s1.mode = s.mode ∧ s1.currentQuestionIndex = s.currentQuestionIndex ∧
    s1.timeLeft = s.timeLeft ∧ s1.useMockData = s.useMockData ∧
    s1.examId = s.examId := by
  by_cases hmode : s.mode = Mode.learning
  · rw [if_pos hmode] at hsr
    cases hsr
    exact ⟨rfl, rfl, rfl, rfl, rfl, rfl, rfl⟩
  · rw [if_neg hmode] at hsr
    obtain ⟨pre, _, _, hqs, hsel, hmo, hidx, ht, hmock, hexam, _⟩ :=
      saveResponse_some s s1 hsr
    exact ⟨hqs, hsel, hmo, hidx, ht, hmock, hexam⟩

theorem handleNextQuestion_some (s s' : ExamState)
    (h : handleNextQuestion s = some s') :
    s'.questions = s.questions ∧ s'.mode = s.mode ∧
    s'.selectedAnswers = s.selectedAnswers ∧ s'.timeLeft = s.timeLeft ∧
    s'.useMockData = s.useMockData ∧ s'.examId = s.examId := by
  unfold handleNextQuestion at h
  cases hsr : (if s.mode = Mode.learning then some s else saveResponse s) with
  | none =>
      simp only [hsr] at h
      exact Option.noConfusion h
  | some s1 =>
      simp only [hsr] at h
      obtain ⟨hqs, hsel, hmo, hidx, ht, hmock, hexam⟩ :=
        nextQuestion_save_facts s s1 hsr
      split at h
      · cases h
        exact ⟨hqs, hmo, hsel, ht, hmock, hexam⟩
      · obtain ⟨pre, _, heff, hqs2, hsel2, hmo2, _, ht2, hmock2, hexam2⟩ :=
          handleSubmitExam_some s1 s' h
        exact ⟨hqs2.trans hqs, hmo2.trans hmo, hsel2.trans hsel,
          ht2.trans ht, hmock2.trans hmock, hexam2.trans hexam⟩

theorem timerTick_some (s s' : ExamState) (h : timerTick s = some s') :
    s'.questions = s.questions ∧ s'.mode = s.mode ∧
    s'.selectedAnswers = s.selectedAnswers ∧
    s'.useMockData = s.useMockData ∧ s'.examId = s.examId ∧
    s'.currentQuestionIndex = s.currentQuestionIndex := by
  unfold timerTick at h
  by_cases hc : s.mode = Mode.mock_test ∧ 0 < s.timeLeft
  · rw [if_pos hc] at h
    by_cases h1 : s.timeLeft ≤ 1
    · rw [if_pos h1] at h
      cases hse : handleSubmitExam s with
      | none =>
          simp only [hse] at h
          exact Option.noConfusion h
      | some s2 =>
          simp only [hse] at h
          cases h
          obtain ⟨_, _, heff, hqs, hsel, hmo, hidx, _, hmock, hexam⟩ :=
            handleSubmitExam_some s s2 hse
          exact ⟨hqs, hmo, hsel, hmock, hexam, hidx⟩
    · rw [if_neg h1] at h
      cases h
      exact ⟨rfl, rfl, rfl, rfl, rfl, rfl⟩
  · rw [if_neg hc] at h
    cases h
    exact ⟨rfl, rfl, rfl, rfl, rfl, rfl⟩

/-- C1: for a session with a non-empty question sequence (well-formed: the
question identifiers are distinct and every chosen-answer key belongs to
the sequence, as the controller guarantees), submission finalizes with
`score = round(100 * correctCount / totalQuestions)` where `correctCount`
counts the questions whose chosen answer is the correctness-flagged one,
the denominator is the full sequence length, and `0 ≤ score ≤ 100`. -/
theorem claim_C1_submit_score (s s' : ExamState)
    (hne : s.questions ≠ [])
    (hqid : (s.questions.map Question.id).Nodup)
    (hkeys : (s.selectedAnswers.map Prod.fst).Nodup)
    (hsub : ∀ k ∈ s.selectedAnswers.map Prod.fst,
      k ∈ s.questions.map Question.id)
    (hlive : s.useMockData = false)
    (hrun : handleSubmitExam s = some s') :
    ∃ pre, s'.effects = (s.effects ++ pre) ++
        [Effect.finalize s.examId
           (computeExamScore s.questions s.selectedAnswers)
           (passedOf (computeExamScore s.questions s.selectedAnswers)),
         Effect.examComplete s.examId] ∧
      (computeExamScore s.questions s.selectedAnswers : ℤ) =
        round ((100 * (specCorrectCount s.questions s.selectedAnswers : ℚ)) /
          (s.questions.length : ℚ)) ∧
      computeExamScore s.questions s.selectedAnswers ≤ 100 := by
  obtain ⟨pre, hresp, heff, hqs, hsel, hmo, hidx, ht, hmock, hexam⟩ :=
    handleSubmitExam_some s s' hrun
  refine ⟨pre, ?_, ?_, ?_⟩
  · rw [heff]
    congr 1
    simp [finalizeEffects, hlive]
  · have hn : s.questions.length ≠ 0 := by
      intro h0
      exact hne (List.length_eq_zero.mp h0)
    have hcc : correctCount s.questions s.selectedAnswers =
        specCorrectCount s.questions s.selectedAnswers :=
      correctCount_eq_spec _ _ hqid hkeys hsub
    unfold computeExamScore
    rw [hcc]
    exact computeScore_eq_round _ _ hn
  · unfold computeExamScore
    refine computeScore_le_100 _ _ ?_
    rw [correctCount_eq_spec _ _ hqid hkeys hsub]
    exact specCorrectCount_le_length _ _

theorem claim_C1_submit_score_witness :
    ∃ pre, sampleFinal.effects = (sampleState.effects ++ pre) ++
        [Effect.finalize sampleState.examId
           (computeExamScore sampleState.questions sampleState.selectedAnswers)
           (passedOf
             (computeExamScore sampleState.questions
               sampleState.selectedAnswers)),
         Effect.examComplete sampleState.examId] ∧
      (computeExamScore sampleState.questions sampleState.selectedAnswers : ℤ) =
        round ((100 * (specCorrectCount sampleState.questions
          sampleState.selectedAnswers : ℚ)) /
          (sampleState.questions.length : ℚ)) ∧
      computeExamScore sampleState.questions sampleState.selectedAnswers ≤ 100 :=
  claim_C1_submit_score sampleState sampleFinal (by decide) (by decide)
    (by decide) (by decide) rfl (by rfl)

/-- C2: every finalized session's pass flag is `score >= 70`, exactly at
the boundary: a score of 70 passes and a score of 69 fails. -/
theorem claim_C2_pass_boundary (s s' : ExamState)
    (hlive : s.useMockData = false)
    (hrun : handleSubmitExam s = some s') :
    (∃ pre sc, s'.effects = (s.effects ++ pre) ++
        [Effect.finalize s.examId sc (passedOf sc),
         Effect.examComplete s.examId] ∧
      (passedOf sc = true ↔ 70 ≤ sc)) ∧
    passedOf 70 = true ∧ passedOf 69 = false := by
  obtain ⟨pre, hresp, heff, hqs, hsel, hmo, hidx, ht, hmock, hexam⟩ :=
    handleSubmitExam_some s s' hrun
  refine ⟨⟨pre, computeExamScore s.questions s.selectedAnswers, ?_, ?_⟩,
    rfl, rfl⟩
  · rw [heff]
    congr 1
    simp [finalizeEffects, hlive]
  · simp [passedOf]

theorem claim_C2_pass_boundary_witness :
    (∃ pre sc, sampleFinal.effects = (sampleState.effects ++ pre) ++
        [Effect.finalize sampleState.examId sc (passedOf sc),
         Effect.examComplete sampleState.examId] ∧
      (passedOf sc = true ↔ 70 ≤ sc)) ∧
    passedOf 70 = true ∧ passedOf 69 = false :=
  claim_C2_pass_boundary sampleState sampleFinal rfl (by rfl)

theorem lookupAL_isSome_of_mem (m : AnswerMap) (k : String)
    (h : k ∈ m.map Prod.fst) : ∃ v, lookupAL m k = some v := by
  induction m with
  | nil => simp at h
  | cons e rest ih =>
      obtain ⟨a, b⟩ := e
      by_cases ha : a = k
      · exact ⟨b, by simp [lookupAL, ha]⟩
      · have hk : k ∈ rest.map Prod.fst := by
          simp only [List.map_cons, List.mem_cons] at h
          rcases h with h | h
          · exact absurd h.symm ha
          · exact h
        obtain ⟨v, hv⟩ := ih hk
        exact ⟨v, by simp [lookupAL, ha, hv]⟩

theorem correctCount_insertAL_dead (qs : List Question) (sel : AnswerMap)
    (k aid : String) (hdead : ∀ v, entryCorrect qs k v = false) :
    correctCount qs (insertAL sel k aid) = correctCount qs sel := by
  by_cases hk : k ∈ sel.map Prod.fst
  · unfold correctCount
    rw [insertAL_keys_mem sel k aid hk]
    refine List.countP_congr ?_
    intro x hx
    by_cases hxk : x = k
    · subst hxk
      rw [lookupAL_insert_self]
      obtain ⟨v, hv⟩ := lookupAL_isSome_of_mem sel x hx
      rw [hv]
      simp [hdead]
    · rw [lookupAL_insert_ne sel k aid x hxk]
  · unfold correctCount
    rw [insertAL_keys_not_mem sel k aid hk, List.countP_append]
    have h1 : ([k].countP fun qid =>
        match lookupAL (insertAL sel k aid) qid with
        | some v => entryCorrect qs qid v
        | none => false) = 0 := by
      simp [List.countP_cons, lookupAL_insert_self, hdead]
    have h2 : ((sel.map Prod.fst).countP fun qid =>
        match lookupAL (insertAL sel k aid) qid with
        | some v => entryCorrect qs qid v
        | none => false) = (sel.map Prod.fst).countP fun qid =>
        match lookupAL sel qid with
        | some v => entryCorrect qs qid v
        | none => false := by
      refine List.countP_congr ?_
      intro x hx
      have hxk : x ≠ k := by
        intro he
        rw [he] at hx
        exact hk hx
      rw [lookupAL_insert_ne sel k aid x hxk]
    rw [h1, h2]
    exact Nat.add_zero _

/-- C4: a question none of whose options carries the correctness flag
(including one with no options) can never be scored correct: every
per-key check of the scorer for it is false, recording any choice for it
leaves the correct count unchanged, and the scoring denominator is still
the full sequence length, which counts that question. -/
theorem claim_C4_dead_question (qs : List Question) (q : Question)
    (hmem : q ∈ qs)
    (hnone : ∀ a ∈ q.answers, a.is_correct = false)
    (hqid : (qs.map Question.id).Nodup) :
    (∀ aid, entryCorrect qs q.id aid = false) ∧
    (∀ sel aid, correctCount qs (insertAL sel q.id aid) =
      correctCount qs sel) ∧
    (∀ sel, computeExamScore qs sel =
      computeScore (correctCount qs sel) qs.length) ∧
    0 < qs.length := by
  have hfq : findQuestion qs q.id = some q :=
    findQuestion_eq_of_nodup qs q hmem hqid
  have hfc : findCorrect q = none := by
    unfold findCorrect
    refine List.find?_eq_none.mpr ?_
    intro a ha
    simp [hnone a ha]
  have hdead : ∀ aid, entryCorrect qs q.id aid = false := by
    intro aid
    unfold entryCorrect
    rw [hfq]
    dsimp only
    unfold isCorrectOf
    rw [hfc]
  refine ⟨hdead, ?_, fun _ => rfl, List.length_pos.mpr ?_⟩
  · intro sel aid
    exact correctCount_insertAL_dead qs sel q.id aid hdead
  · intro h0
    rw [h0] at hmem
    cases hmem

/-- An answer that is not correctness-flagged, for witnesses. -/
def deadAns : Answer :=
  { id := "a3", question_id := "q2", answer_text := "x", is_correct := false }

/-- A question with no correctness-flagged answer, for witnesses. -/
def deadQ : Question :=
  { id := "q2", question_text := "unanswerable", answers := [deadAns] }

theorem claim_C4_dead_question_witness :
    (∀ aid, entryCorrect [sampleQ, deadQ] deadQ.id aid = false) ∧
    (∀ sel aid, correctCount [sampleQ, deadQ] (insertAL sel deadQ.id aid) =
      correctCount [sampleQ, deadQ] sel) ∧
    (∀ sel, computeExamScore [sampleQ, deadQ] sel =
      computeScore (correctCount [sampleQ, deadQ] sel)
        (List.length [sampleQ, deadQ])) ∧
    0 < List.length [sampleQ, deadQ] :=
  claim_C4_dead_question [sampleQ, deadQ] deadQ (by simp)
    (by simp [deadQ, deadAns]) (by decide)

/-- C5: `selectAnswer` records the choice for the current question only:
it keeps at most one entry per question identifier, overwrites the prior
choice on reselection (the last selection wins), and never moves the
current question pointer. -/
theorem claim_C5_select_answer (s : ExamState) (q : Question) (aid : String)
    (hq : s.questions[s.currentQuestionIndex]? = some q) :
    ∃ s', handleAnswerSelect s aid = some s' ∧
      s'.currentQuestionIndex = s.currentQuestionIndex ∧
      s'.questions = s.questions ∧
      s'.selectedAnswers = insertAL s.selectedAnswers q.id aid ∧
      lookupAL s'.selectedAnswers q.id = some aid ∧
      ((s.selectedAnswers.map Prod.fst).Nodup →
        (s'.selectedAnswers.map Prod.fst).Nodup) ∧
      (∀ aid2, ∃ s'', handleAnswerSelect s' aid2 = some s'' ∧
        lookupAL s''.selectedAnswers q.id = some aid2 ∧
        s''.currentQuestionIndex = s.currentQuestionIndex) := by
  refine ⟨_, handleAnswerSelect_eq s q aid hq, rfl, rfl, rfl,
    lookupAL_insert_self _ _ _,
    fun hnd => insertAL_keys_nodup _ _ _ hnd, ?_⟩
  intro aid2
  refine ⟨_, handleAnswerSelect_eq _ q aid2 hq, ?_, rfl⟩
  exact lookupAL_insert_self _ _ _

theorem claim_C5_select_answer_witness :
    ∃ s', handleAnswerSelect sampleState "a2" = some s' ∧
      s'.currentQuestionIndex = sampleState.currentQuestionIndex ∧
      s'.questions = sampleState.questions ∧
      s'.selectedAnswers = insertAL sampleState.selectedAnswers sampleQ.id "a2" ∧
      lookupAL s'.selectedAnswers sampleQ.id = some "a2" ∧
      ((sampleState.selectedAnswers.map Prod.fst).Nodup →
        (s'.selectedAnswers.map Prod.fst).Nodup) ∧
      (∀ aid2, ∃ s'', handleAnswerSelect s' aid2 = some s'' ∧
        lookupAL s''.selectedAnswers sampleQ.id = some aid2 ∧
        s''.currentQuestionIndex = sampleState.currentQuestionIndex) :=
  claim_C5_select_answer sampleState sampleQ "a2" rfl

/-- C6: the question pointer stays within bounds: `retreat()` at the
first question is a no-op and never alters captured answers, `advance()`
at the last question finalizes (live sessions gain exactly one finalize
call) without moving the pointer, and otherwise retreat/advance move by
exactly one. -/
theorem claim_C6_pointer (s : ExamState) (q : Question)
    (hq : s.questions[s.currentQuestionIndex]? = some q) :
    (s.currentQuestionIndex = 0 → handlePreviousQuestion s = s) ∧
    (0 < s.currentQuestionIndex →
      (handlePreviousQuestion s).currentQuestionIndex =
        s.currentQuestionIndex - 1 ∧
      (handlePreviousQuestion s).selectedAnswers = s.selectedAnswers) ∧
    (s.currentQuestionIndex < s.questions.length - 1 →
      ∃ s', handleNextQuestion s = some s' ∧
        s'.currentQuestionIndex = s.currentQuestionIndex + 1 ∧
        s'.currentQuestionIndex < s.questions.length ∧
        countFinalize s'.effects = countFinalize s.effects) ∧
    (¬s.currentQuestionIndex < s.questions.length - 1 →
      ∃ s', handleNextQuestion s = some s' ∧
        s'.currentQuestionIndex = s.currentQuestionIndex ∧
        s'.currentQuestionIndex < s.questions.length ∧
        (s.useMockData = false →
          countFinalize s'.effects = countFinalize s.effects + 1)) := by
  have hlt : s.currentQuestionIndex < s.questions.length :=
    (List.getElem?_eq_some.mp hq).1
  refine ⟨handlePreviousQuestion_first s, ?_, ?_, ?_⟩
  · intro hpos
    rw [handlePreviousQuestion_step s hpos]
    exact ⟨rfl, rfl⟩
  · intro hstep
    refine ⟨_, handleNextQuestion_eq_step s q hq hstep, rfl, ?_, ?_⟩
    · show s.currentQuestionIndex + 1 < s.questions.length
      omega
    · show countFinalize (s.effects ++ preSubmitEffects s q) =
        countFinalize s.effects
      rw [countFinalize_append, countFinalize_preSubmitEffects]
      omega
  · intro hlast
    refine ⟨_, handleNextQuestion_eq_last s q hq hlast, rfl, hlt, ?_⟩
    intro hlive
    show countFinalize (s.effects ++ preSubmitEffects s q ++
      (preSubmitEffects s q ++ finalizeEffects s)) =
      countFinalize s.effects + 1
    rw [countFinalize_append, countFinalize_append, countFinalize_append,
      countFinalize_preSubmitEffects, countFinalize_finalizeEffects, hlive]
    simp

/-- A correctness-flagged answer of the second witness question. -/
def ansB : Answer :=
  { id := "b1", question_id := "q2", answer_text := "yes", is_correct := true }

/-- A second question with a correctness-flagged answer, for witnesses. -/
def questionTwo : Question :=
  { id := "q2", question_text := "two", answers := [ansB] }

/-- A two-question live practice session at the first question. -/
def multiState : ExamState :=
  { mode := Mode.practice, questions := [sampleQ, questionTwo],
    currentQuestionIndex := 0, selectedAnswers := [("q1", "a1")],
    timeLeft := 0, examId := "e2", showExplanation := false,
    useMockData := false, effects := [] }

theorem claim_C6_pointer_witness :
    (multiState.currentQuestionIndex = 0 →
      handlePreviousQuestion multiState = multiState) ∧
    (0 < multiState.currentQuestionIndex →
      (handlePreviousQuestion multiState).currentQuestionIndex =
        multiState.currentQuestionIndex - 1 ∧
      (handlePreviousQuestion multiState).selectedAnswers =
        multiState.selectedAnswers) ∧
    (multiState.currentQuestionIndex < multiState.questions.length - 1 →
      ∃ s', handleNextQuestion multiState = some s' ∧
        s'.currentQuestionIndex = multiState.currentQuestionIndex + 1 ∧
        s'.currentQuestionIndex < multiState.questions.length ∧
        countFinalize s'.effects = countFinalize multiState.effects) ∧
    (¬multiState.currentQuestionIndex < multiState.questions.length - 1 →
      ∃ s', handleNextQuestion multiState = some s' ∧
        s'.currentQuestionIndex = multiState.currentQuestionIndex ∧
        s'.currentQuestionIndex < multiState.questions.length ∧
        (multiState.useMockData = false →
          countFinalize s'.effects = countFinalize multiState.effects + 1)) :=
  claim_C6_pointer multiState sampleQ rfl

/-- C7: with a sufficient pool, the loaded sequence has length exactly 10
in practice and learning modes and exactly 20 in mock-test mode, and no
session operation ever changes the question sequence. -/
theorem claim_C7_fixed_length (shuffleQ : List Question → List Question)
    (shuffleA : List Answer → List Answer) (pool : List Question)
    (mode : Mode)
    (hlen : ∀ l, (shuffleQ l).length = l.length)
    (hpool : questionCount mode ≤ pool.length) :
    (fetchQuestionsMock shuffleQ shuffleA pool mode).length =
      questionCount mode ∧
    questionCount Mode.practice = 10 ∧ questionCount Mode.learning = 10 ∧
    questionCount Mode.mock_test = 20 ∧
    (∀ s s' aid, handleAnswerSelect s aid = some s' →
      s'.questions = s.questions) ∧
    (∀ s s', handleNextQuestion s = some s' → s'.questions = s.questions) ∧
    (∀ s, (handlePreviousQuestion s).questions = s.questions) ∧
    (∀ s s', handleSubmitExam s = some s' → s'.questions = s.questions) ∧
    (∀ s s', timerTick s = some s' → s'.questions = s.questions) := by
  refine ⟨?_, rfl, rfl, rfl, ?_, ?_, ?_, ?_, ?_⟩
  · unfold fetchQuestionsMock
    rw [hlen, List.length_map, List.length_take]
    omega
  · intro s s' aid h
    exact (handleAnswerSelect_some s s' aid h).1
  · intro s s' h
    exact (handleNextQuestion_some s s' h).1
  · intro s
    unfold handlePreviousQuestion
    split <;> rfl
  · intro s s' h
    obtain ⟨pre, hresp, heff, hqs, hsel, hmo, hidx, ht, hmock, hexam⟩ :=
      handleSubmitExam_some s s' h
    exact hqs
  · intro s s' h
    exact (timerTick_some s s' h).1

theorem claim_C7_fixed_length_witness :
    (fetchQuestionsMock (fun l => l) (fun l => l)
        (List.replicate 10 sampleQ) Mode.practice).length =
      questionCount Mode.practice ∧
    questionCount Mode.practice = 10 ∧ questionCount Mode.learning = 10 ∧
    questionCount Mode.mock_test = 20 ∧
    (∀ s s' aid, handleAnswerSelect s aid = some s' →
      s'.questions = s.questions) ∧
    (∀ s s', handleNextQuestion s = some s' → s'.questions = s.questions) ∧
    (∀ s, (handlePreviousQuestion s).questions = s.questions) ∧
    (∀ s s', handleSubmitExam s = some s' → s'.questions = s.questions) ∧
    (∀ s s', timerTick s = some s' → s'.questions = s.questions) :=
  claim_C7_fixed_length (fun l => l) (fun l => l)
    (List.replicate 10 sampleQ) Mode.practice (fun l => rfl) (by decide)

/-- The session-state components that must evolve identically in all
modes: the question pointer and the chosen-answer map. -/
def answersPointer (s : ExamState) : Nat × AnswerMap :=
  (s.currentQuestionIndex, s.selectedAnswers)

/-- The score the submission step computes from a state. -/
def scoreOf (s : ExamState) : Nat :=
  computeExamScore s.questions s.selectedAnswers

/-- C9: in learning mode no response record is ever persisted — neither
selection, navigation nor submission emits a response effect — while the
answers, the pointer and the computed score evolve exactly as they would
in practice mode. -/
theorem claim_C9_learning_frame (s : ExamState) (q : Question)
    (hmode : s.mode = Mode.learning)
    (hq : s.questions[s.currentQuestionIndex]? = some q) :
    (∀ aid s', handleAnswerSelect s aid = some s' →
      countResponses s'.effects = countResponses s.effects) ∧
    (∀ s', handleNextQuestion s = some s' →
      countResponses s'.effects = countResponses s.effects) ∧
    countResponses (handlePreviousQuestion s).effects =
      countResponses s.effects ∧
    (∀ s', handleSubmitExam s = some s' →
      countResponses s'.effects = countResponses s.effects) ∧
    (∀ aid, (handleAnswerSelect s aid).map answersPointer =
      (handleAnswerSelect { s with mode := Mode.practice } aid).map
        answersPointer) ∧
    ((handleNextQuestion s).map answersPointer =
      (handleNextQuestion { s with mode := Mode.practice }).map
        answersPointer) ∧
    answersPointer (handlePreviousQuestion s) =
      answersPointer
        (handlePreviousQuestion { s with mode := Mode.practice }) ∧
    (handleSubmitExam s).map scoreOf =
      (handleSubmitExam { s with mode := Mode.practice }).map scoreOf := by
  have hqp : ({ s with mode := Mode.practice } :
      ExamState).questions[({ s with mode := Mode.practice } :
      ExamState).currentQuestionIndex]? = some q := hq
  refine ⟨?_, ?_, ?_, ?_, ?_, ?_, ?_, ?_⟩
  · intro aid s' h
    obtain ⟨_, _, _, heff, _, _, _⟩ := handleAnswerSelect_some s s' aid h
    rw [heff]
  · intro s' h
    by_cases hstep : s.currentQuestionIndex < s.questions.length - 1
    · rw [handleNextQuestion_eq_step s q hq hstep] at h
      cases h
      show countResponses (s.effects ++ preSubmitEffects s q) =
        countResponses s.effects
      simp [preSubmitEffects, hmode]
    · rw [handleNextQuestion_eq_last s q hq hstep] at h
      cases h
      show countResponses (s.effects ++ preSubmitEffects s q ++
        (preSubmitEffects s q ++ finalizeEffects s)) = countResponses s.effects
      simp [preSubmitEffects, hmode, countResponses_append,
        countResponses_finalizeEffects]
  · unfold handlePreviousQuestion
    split <;> rfl
  · intro s' h
    rw [handleSubmitExam_eq s q hq] at h
    cases h
    show countResponses (s.effects ++
      (preSubmitEffects s q ++ finalizeEffects s)) = countResponses s.effects
    simp [preSubmitEffects, hmode, countResponses_append,
      countResponses_finalizeEffects]
  · intro aid
    rw [handleAnswerSelect_eq s q aid hq,
      handleAnswerSelect_eq _ q aid hqp]
    rfl
  · by_cases hstep : s.currentQuestionIndex < s.questions.length - 1
    · rw [handleNextQuestion_eq_step s q hq hstep,
        handleNextQuestion_eq_step _ q hqp hstep]
      rfl
    · rw [handleNextQuestion_eq_last s q hq hstep,
        handleNextQuestion_eq_last _ q hqp hstep]
      rfl
  · by_cases hp : 0 < s.currentQuestionIndex
    · rw [handlePreviousQuestion_step s hp,
        handlePreviousQuestion_step { s with mode := Mode.practice } hp]
      rfl
    · have h0 : s.currentQuestionIndex = 0 := by omega
      rw [handlePreviousQuestion_first s h0,
        handlePreviousQuestion_first { s with mode := Mode.practice } h0]
      rfl
  · rw [handleSubmitExam_eq s q hq, handleSubmitExam_eq _ q hqp]
    rfl

/-- A two-question live learning session with nothing selected yet. -/
def sampleLearn : ExamState :=
  { mode := Mode.learning, questions := [sampleQ, questionTwo],
    currentQuestionIndex := 0, selectedAnswers := [], timeLeft := 0,
    examId := "e3", showExplanation := false, useMockData := false,
    effects := [] }

theorem claim_C9_learning_frame_witness :
    (∀ aid s', handleAnswerSelect sampleLearn aid = some s' →
      countResponses s'.effects = countResponses sampleLearn.effects) ∧
    (∀ s', handleNextQuestion sampleLearn = some s' →
      countResponses s'.effects = countResponses sampleLearn.effects) ∧
    countResponses (handlePreviousQuestion sampleLearn).effects =
      countResponses sampleLearn.effects ∧
    (∀ s', handleSubmitExam sampleLearn = some s' →
      countResponses s'.effects = countResponses sampleLearn.effects) ∧
    (∀ aid, (handleAnswerSelect sampleLearn aid).map answersPointer =
      (handleAnswerSelect { sampleLearn with mode := Mode.practice } aid).map
        answersPointer) ∧
    ((handleNextQuestion sampleLearn).map answersPointer =
      (handleNextQuestion { sampleLearn with mode := Mode.practice }).map
        answersPointer) ∧
    answersPointer (handlePreviousQuestion sampleLearn) =
      answersPointer
        (handlePreviousQuestion { sampleLearn with mode := Mode.practice }) ∧
    (handleSubmitExam sampleLearn).map scoreOf =
      (handleSubmitExam { sampleLearn with mode := Mode.practice }).map
        scoreOf :=
  claim_C9_learning_frame sampleLearn sampleQ rfl rfl

/-- C10: in learning mode the first selection made on a question while it
is current is final for that visit: selecting sets the explanation flag,
every further click is disabled and changes nothing, and only a
successful advance or retreat clears the flag again. -/
theorem claim_C10_learning_lock (s : ExamState) (q : Question) (aid : String)
    (hmode : s.mode = Mode.learning)
    (hq : s.questions[s.currentQuestionIndex]? = some q)
    (hflag : s.showExplanation = false) :
    ∃ s1, clickAnswer s aid = some s1 ∧
      s1.showExplanation = true ∧
      lookupAL s1.selectedAnswers q.id = some aid ∧
      (∀ aid2, clickAnswer s1 aid2 = some s1) ∧
      (s1.currentQuestionIndex < s1.questions.length - 1 →
        ∀ s2, handleNextQuestion s1 = some s2 →
          s2.showExplanation = false) ∧
      (0 < s1.currentQuestionIndex →
        (handlePreviousQuestion s1).showExplanation = false) := by
  have hsr : showResult s = false := by
    unfold showResult
    rw [if_pos hmode, hflag]
  have hclick : clickAnswer s aid = handleAnswerSelect s aid := by
    unfold clickAnswer
    rw [hsr]
    simp
  refine ⟨{ s with
      selectedAnswers := insertAL s.selectedAnswers q.id aid,
      showExplanation :=
        if s.mode = Mode.learning then true else s.showExplanation },
    by rw [hclick]; exact handleAnswerSelect_eq s q aid hq, ?_, ?_, ?_, ?_, ?_⟩
  · show (if s.mode = Mode.learning then true else s.showExplanation) = true
    rw [if_pos hmode]
  · exact lookupAL_insert_self _ _ _
  · intro aid2
    have hsr1 : showResult { s with
        selectedAnswers := insertAL s.selectedAnswers q.id aid,
        showExplanation :=
          if s.mode = Mode.learning then true else s.showExplanation } =
        true := by
      unfold showResult
      dsimp only
      rw [if_pos hmode, if_pos hmode]
    unfold clickAnswer
    rw [hsr1]
    simp
  · intro hlt s2 h
    rw [handleNextQuestion_eq_step { s with
        selectedAnswers := insertAL s.selectedAnswers q.id aid,
        showExplanation :=
          if s.mode = Mode.learning then true else s.showExplanation }
      q hq hlt] at h
    cases h
    rfl
  · intro hp
    rw [handlePreviousQuestion_step { s with
        selectedAnswers := insertAL s.selectedAnswers q.id aid,
        showExplanation :=
          if s.mode = Mode.learning then true else s.showExplanation } hp]

theorem claim_C10_learning_lock_witness :
    ∃ s1, clickAnswer sampleLearn "a1" = some s1 ∧
      s1.showExplanation = true ∧
      lookupAL s1.selectedAnswers sampleQ.id = some "a1" ∧
      (∀ aid2, clickAnswer s1 aid2 = some s1) ∧
      (s1.currentQuestionIndex < s1.questions.length - 1 →
        ∀ s2, handleNextQuestion s1 = some s2 →
          s2.showExplanation = false) ∧
      (0 < s1.currentQuestionIndex →
        (handlePreviousQuestion s1).showExplanation = false) :=
  claim_C10_learning_lock sampleLearn sampleQ "a1" rfl rfl rfl

theorem timerTick_timeLeft_zero (s : ExamState) (h : s.timeLeft = 0) :
    timerTick s = some s := by
  unfold timerTick
  have hc : ¬(s.mode = Mode.mock_test ∧ 0 < s.timeLeft) := by
    rintro ⟨-, h2⟩
    omega
  rw [if_neg hc]

theorem timerIter_timeLeft_zero (n : Nat) (s : ExamState)
    (h : s.timeLeft = 0) : timerIter n s = some s := by
  induction n with
  | zero => rfl
  | succ n ih =>
      unfold timerIter
      rw [timerTick_timeLeft_zero s h]
      exact ih

theorem handleSubmitExam_countFinalize (s s' : ExamState)
    (h : handleSubmitExam s = some s') :
    countFinalize s'.effects =
      countFinalize s.effects + (if s.useMockData then 0 else 1) := by
  obtain ⟨pre, hresp, heff, _, _, _, _, _, _, _⟩ := handleSubmitExam_some s s' h
  rw [heff, countFinalize_append, countFinalize_append,
    countFinalize_of_responses pre hresp, countFinalize_finalizeEffects]
  simp

theorem timerIter_finalize_le (n : Nat) (s s' : ExamState)
    (h : timerIter n s = some s') :
    countFinalize s'.effects ≤ countFinalize s.effects + 1 := by
  induction n generalizing s with
  | zero =>
      cases h
      omega
  | succ n ih =>
      unfold timerIter at h
      cases htk : timerTick s with
      | none =>
          simp only [htk] at h
          exact Option.noConfusion h
      | some s1 =>
          simp only [htk] at h
          unfold timerTick at htk
          by_cases hc : s.mode = Mode.mock_test ∧ 0 < s.timeLeft
          · rw [if_pos hc] at htk
            by_cases h1 : s.timeLeft ≤ 1
            · rw [if_pos h1] at htk
              cases hse : handleSubmitExam s with
              | none =>
                  simp only [hse] at htk
                  exact Option.noConfusion htk
              | some s2 =>
                  simp only [hse] at htk
                  cases htk
                  rw [timerIter_timeLeft_zero n _ rfl] at h
                  cases h
                  have hcnt := handleSubmitExam_countFinalize s s2 hse
                  show countFinalize s2.effects ≤ countFinalize s.effects + 1
                  rw [hcnt]
                  split <;> omega
            · rw [if_neg h1] at htk
              cases htk
              exact ih { s with timeLeft := s.timeLeft - 1 } h
          · rw [if_neg hc] at htk
            cases htk
            exact ih s h

/-- C3 (amended): the countdown alone invokes submit at most once — after
it fires, the clock is pinned to zero and a zero clock never re-arms the
interval — but `handleSubmitExam` carries no idempotency guard: every
invocation performs the scoring/finalize side effect, so a timer expiry
with a manual submission already completed finalizes the session twice. -/
theorem claim_C3_no_guard (s s1 : ExamState) (q : Question)
    (hq : s.questions[s.currentQuestionIndex]? = some q)
    (hmode : s.mode = Mode.mock_test)
    (ht0 : 0 < s.timeLeft) (ht1 : s.timeLeft ≤ 1)
    (hlive : s.useMockData = false)
    (hsub : handleSubmitExam s = some s1) :
    (∀ n t t', timerIter n t = some t' →
      countFinalize t'.effects ≤ countFinalize t.effects + 1) ∧
    (∀ t, t.timeLeft = 0 → timerTick t = some t) ∧
    (∃ s2, timerTick s1 = some s2 ∧
      countFinalize s2.effects = countFinalize s.effects + 2) := by
  refine ⟨fun n t t' h => timerIter_finalize_le n t t' h,
    fun t h => timerTick_timeLeft_zero t h, ?_⟩
  obtain ⟨pre, hresp, heff, hqs, hsel, hmo, hidx, htl, hmock, hexam⟩ :=
    handleSubmitExam_some s s1 hsub
  have hq1 : s1.questions[s1.currentQuestionIndex]? = some q := by
    rw [hqs, hidx]
    exact hq
  have hsub2 := handleSubmitExam_eq s1 q hq1
  have hfire : timerTick s1 = some { s1 with
      effects := s1.effects ++ (preSubmitEffects s1 q ++ finalizeEffects s1),
      timeLeft := 0 } := by
    unfold timerTick
    rw [if_pos ⟨hmo.trans hmode, by rw [htl]; exact ht0⟩,
      if_pos (by rw [htl]; exact ht1), hsub2]
  refine ⟨_, hfire, ?_⟩
  show countFinalize (s1.effects ++
      (preSubmitEffects s1 q ++ finalizeEffects s1)) =
    countFinalize s.effects + 2
  have hcnt1 := handleSubmitExam_countFinalize s s1 hsub
  have hm1 : s1.useMockData = false := by
    rw [hmock]
    exact hlive
  rw [countFinalize_append, countFinalize_append,
    countFinalize_preSubmitEffects, countFinalize_finalizeEffects, hm1,
    hlive] at *
  simp at hcnt1 ⊢
  omega

theorem claim_C3_no_guard_witness :
    (∀ n t t', timerIter n t = some t' →
      countFinalize t'.effects ≤ countFinalize t.effects + 1) ∧
    (∀ t, t.timeLeft = 0 → timerTick t = some t) ∧
    (∃ s2, timerTick sampleFinal = some s2 ∧
      countFinalize s2.effects = countFinalize sampleState.effects + 2) :=
  claim_C3_no_guard sampleState sampleFinal sampleQ rfl rfl (by decide)
    (by decide) rfl (by rfl)

/-- C3 counterexample: the claimed "scoring and finalize side effect is
performed at most once per session" is false at a concrete session: with
the manual submission already completed and one second on the clock, the
timer tick invokes submit again and the trace ends with two finalize
calls to the external collaborator. -/
theorem claim_C3_counterexample :
    (Option.bind (handleSubmitExam sampleState) timerTick).map
      (fun t => countFinalize t.effects) = some 2 := by
  rfl

/-- C8 (amended): in non-learning live modes one `advance()` persists a
response record exactly when a non-empty answer id was chosen for the
current question; but records are not unique per answered question:
`advance()` on the last question saves the current response and the
submission it triggers saves the same response a second time. -/
theorem claim_C8_advance_persists (s : ExamState) (q : Question)
    (hq : s.questions[s.currentQuestionIndex]? = some q)
    (hmode : ¬s.mode = Mode.learning)
    (hlive : s.useMockData = false) :
    (s.currentQuestionIndex < s.questions.length - 1 →
      ∃ s', handleNextQuestion s = some s' ∧
        s'.effects = s.effects ++
          (match lookupAL s.selectedAnswers q.id with
          | some aid =>
              if aid = "" then []
              else [Effect.response s.examId q.id aid (isCorrectOf q aid)]
          | none => [])) ∧
    (¬s.currentQuestionIndex < s.questions.length - 1 →
      ∀ aid, lookupAL s.selectedAnswers q.id = some aid → ¬aid = "" →
        ∃ s', handleNextQuestion s = some s' ∧
          countResponsesFor q.id s'.effects =
            countResponsesFor q.id s.effects + 2) := by
  have hpre : preSubmitEffects s q =
      (match lookupAL s.selectedAnswers q.id with
      | some aid =>
          if aid = "" then []
          else [Effect.response s.examId q.id aid (isCorrectOf q aid)]
      | none => []) := by
    unfold preSubmitEffects saveResponseEffects
    rw [if_neg hmode]
    cases lookupAL s.selectedAnswers q.id with
    | none => rfl
    | some aid =>
        dsimp only
        by_cases he : aid = ""
        · rw [if_pos he, if_pos he]
        · rw [if_neg he, if_neg he]
          simp [hlive]
  refine ⟨?_, ?_⟩
  · intro hstep
    refine ⟨_, handleNextQuestion_eq_step s q hq hstep, ?_⟩
    show s.effects ++ preSubmitEffects s q = s.effects ++ _
    rw [hpre]
  · intro hlast aid hl he
    have hpre1 : countResponsesFor q.id (preSubmitEffects s q) = 1 := by
      rw [hpre, hl]
      dsimp only
      rw [if_neg he]
      simp [countResponsesFor]
    refine ⟨_, handleNextQuestion_eq_last s q hq hlast, ?_⟩
    show countResponsesFor q.id (s.effects ++ preSubmitEffects s q ++
      (preSubmitEffects s q ++ finalizeEffects s)) =
      countResponsesFor q.id s.effects + 2
    rw [countResponsesFor_append, countResponsesFor_append,
      countResponsesFor_append, hpre1, countResponsesFor_finalizeEffects]

/-- A one-question live practice session with the answer chosen. -/
def samplePractice : ExamState := { sampleState with mode := Mode.practice }

theorem claim_C8_advance_persists_witness :
    (samplePractice.currentQuestionIndex <
        samplePractice.questions.length - 1 →
      ∃ s', handleNextQuestion samplePractice = some s' ∧
        s'.effects = samplePractice.effects ++
          (match lookupAL samplePractice.selectedAnswers sampleQ.id with
          | some aid =>
              if aid = "" then []
              else [Effect.response samplePractice.examId sampleQ.id aid
                (isCorrectOf sampleQ aid)]
          | none => [])) ∧
    (¬samplePractice.currentQuestionIndex <
        samplePractice.questions.length - 1 →
      ∀ aid, lookupAL samplePractice.selectedAnswers sampleQ.id = some aid →
        ¬aid = "" →
        ∃ s', handleNextQuestion samplePractice = some s' ∧
          countResponsesFor sampleQ.id s'.effects =
            countResponsesFor sampleQ.id samplePractice.effects + 2) :=
  claim_C8_advance_persists samplePractice sampleQ rfl (by decide) rfl

/-- C8 counterexample: "exactly one response record is produced per
answered question over the whole session" is false at a concrete session:
finishing this one-question practice session produces two response
records for its single answered question — one from `advance()` and one
from the `submit()` it triggers. -/
theorem claim_C8_counterexample :
    (handleNextQuestion samplePractice).map
      (fun t => countResponsesFor "q1" t.effects) = some 2 := by
  rfl

end Driving
